import Mathlib

/-!
Verification development for the repository's transaction-management core
(`transactionManager` in the transaction package) and the order-option parser
(`ParseOrderOption` in the repository package).

The Go source is shallowly embedded:

* Database handles (`*gorm.DB`) are modelled as `Option Nat` (the `Nat` is an
  opaque handle id; `none` is a nil handle).
* Go `error` values are modelled by the inductive `GoErr`; `Option GoErr`
  stands for a possibly-nil `error`.
* The side effects of the coordinator (`BeginTx`, `Commit`, `Rollback`,
  invoking the callback) are recorded in an explicit event trace (`List Ev`).
  Structured logging (`logger.Error`) is observability only and is not
  modelled, except that a rollback event records the rollback's own error
  result, which the source merely logs.
* The external connection provider (`client.GetDB`) and the outcomes of
  commit/rollback are an oracle (`DbOracle`).
* Context cancellation is modelled by a boolean: the run is performed either
  on a context that is never cancelled, or on one that is already cancelled
  (the two situations the claims quantify over).
* The unit-of-work callback is modelled syntactically (`UoW`): it either
  returns a result and an error, panics, or performs a nested call to
  `Transaction` on the context it received and then either propagates a
  nested failure or swallows it and continues.
* The `*dbWrapper` heap object shared through the context chain is threaded
  explicitly (`Wrapper`); a call's `TxOut.wrapper` is the content of the
  wrapper object reachable from the CALLER's context after the call (so a
  wrapper freshly created by the call itself, which the caller's context
  never sees, does not appear there).
-/

namespace RepoVerify

/-- Go `error` values that occur in the transaction manager. -/
inductive GoErr where
  /-- an ordinary (business) error value, identified by its message -/
  | named (msg : String)
  /-- `fmt.Errorf("recover:%v", r)` for a recovered non-error panic value -/
  | recovered (msg : String)
  /-- `fmt.Errorf("transaction already has error:%w", wrapper.err)` -/
  | alreadyHasError (inner : GoErr)
  /-- `errors.New("can not get db connection")` -/
  | noConnection
  /-- `ctx.Err()` (context cancelled or deadline exceeded) -/
  | ctxCanceled
deriving DecidableEq, Repr

/-- The value carried by a Go panic: either an `error` or some other value
(whose formatting is its message). -/
inductive PanicVal where
  | errVal (e : GoErr)
  | other (msg : String)
deriving DecidableEq, Repr

/-- The conversion performed in the deferred `recover` block:
`err0, isErr := r.(error); if !isErr \x7b err0 = fmt.Errorf("recover:%v", r) \x7d`. -/
def panicToErr : PanicVal → GoErr
  | .errVal e => e
  | .other m => .recovered m

/-- The `dbWrapper` struct: `db *gorm.DB`, `inTransaction bool`, `err error`. -/
structure Wrapper where
  db : Option Nat
  inTransaction : Bool
  err : Option GoErr
deriving DecidableEq, Repr

/-- The state left by `dbWrapper.reset()`: all fields zeroed. -/
def Wrapper.reset : Wrapper := { db := none, inTransaction := false, err := none }

/-- Observable side effects of the coordinator, in program order. -/
inductive Ev where
  /-- `BeginTx` was issued on a connection -/
  | txBegin
  /-- the unit-of-work callback was invoked -/
  | invoke
  /-- `Commit` was issued -/
  | commit
  /-- `Rollback` was issued; the payload is the rollback's own error result,
  which the source only logs and never returns -/
  | rollback (rberr : Option GoErr)
deriving DecidableEq, Repr

/-- Is this event a rollback (with whatever outcome)? -/
def Ev.isRollback : Ev → Bool
  | .rollback _ => true
  | _ => false

/-- Oracle for the external collaborators: the connection provider
(`client.GetDB`), `BeginTx` (mapping a handle to the transaction handle),
and the outcomes of `Commit` and `Rollback`. -/
structure DbOracle where
  conn : Option Nat
  beginTx : Nat → Nat
  commitErr : Option GoErr
  rollbackErr : Option GoErr

/-- Outcome of executing a callback body: a normal return of
`(res interface\x7b\x7d, err error)`, or a panic. -/
inductive CbOut where
  | ret (res : Option Nat) (err : Option GoErr)
  | panicked (v : PanicVal)
deriving DecidableEq, Repr

/-- Syntax of a unit-of-work callback. `seq inner swallow cont` performs a
nested `tm.Transaction(ctx, inner)` call on the context the callback
received; if `swallow` is false and the nested call returned an error, the
callback immediately returns the nested call's result and error
(the usual `if err != nil \x7b return res, err \x7d` pattern); otherwise it
continues with `cont`, discarding the nested result (the error-swallowing
pattern). -/
inductive UoW where
  | done (res : Option Nat) (err : Option GoErr)
  | panics (v : PanicVal)
  | seq (inner : UoW) (swallow : Bool) (cont : UoW)
deriving DecidableEq, Repr

/-- Does every level of the call tree return without error and without
panicking? ("every level's callback returns no error") -/
def allOk : UoW → Bool
  | .done _ e => e.isNone
  | .panics _ => false
  | .seq inner _ cont => allOk inner && allOk cont

/-- Result of the entry phase of `Transaction` (everything before the
deferred recover is installed). -/
inductive Entry where
  /-- `tm.getDb()` returned nil: `return nil, errors.New("can not get db connection")` -/
  | noConn
  /-- the wrapper already carries a sticky error: fail fast -/
  | sticky (e : GoErr)
  /-- proceed to run the callback: `txOpenByMe` is the ownership marker,
  `w0` the wrapper content the callback starts from, `ev` the events issued
  by the entry phase, and `shared` records whether the wrapper object is the
  one the caller's context references (true) or a fresh object attached only
  to the derived context (false) -/
  | go (txOpenByMe : Bool) (w0 : Wrapper) (ev : List Ev) (shared : Bool)
deriving DecidableEq, Repr

/-- The `wrapper == nil || wrapper.db == nil` path of `Transaction`:
get a raw connection, begin a transaction on it, build a fresh wrapper. -/
def entryOpen (O : DbOracle) : Entry :=
  match O.conn with
  | none => .noConn
  | some h =>
    .go true { db := some (O.beginTx h), inTransaction := true, err := none } [Ev.txBegin] false

/-- The entry phase of `Transaction`, translated branch by branch from the
source:
wrapper nil or handle nil → open fresh; else sticky error → fail fast;
else not yet in a transaction → begin on the shared wrapper in place
(ownership taken); else join the open transaction (no ownership). -/
def entry (O : DbOracle) (w : Option Wrapper) : Entry :=
  match w with
  | none => entryOpen O
  | some wr =>
    match wr.db with
    | none => entryOpen O
    | some h =>
      match wr.err with
      | some e => .sticky e
      | none =>
        if wr.inTransaction then
          .go false wr [] true
        else
          .go true { db := some (O.beginTx h), inTransaction := true, err := none } [Ev.txBegin] true

/-- Outcome of the post-entry part of `Transaction` (callback execution and
resolution): result, returned error, final wrapper-object content, events. -/
structure FinOut where
  res : Option Nat
  err : Option GoErr
  wrapper : Wrapper
  events : List Ev
deriving DecidableEq, Repr

/-- The body of `Transaction` after the entry phase: the pre-callback
`ctx.Err()` check, running the callback under the deferred recover
boundary, the post-callback `ctx.Err()` check, and resolution
(rollback on business error, rollback on sticky error, commit otherwise) —
performed only when `txOpenByMe`.  `run` executes the callback body from a
wrapper state and yields its outcome, the wrapper state it leaves behind,
and the events of any nested calls. -/
def finish (O : DbOracle) (canceled txOpenByMe : Bool)
    (run : Wrapper → CbOut × Wrapper × List Ev) (w0 : Wrapper) : FinOut :=
  if canceled then
    -- pre-callback check: `if ctx.Err() != nil { return nil, ctx.Err() }`
    { res := none, err := some GoErr.ctxCanceled, wrapper := w0, events := [] }
  else
    match run w0 with
    | (CbOut.panicked pv, w1, evs) =>
      -- the deferred recover: convert, record sticky, rollback+reset only if owner
      let e := panicToErr pv
      if txOpenByMe then
        { res := none, err := some e, wrapper := Wrapper.reset
          events := Ev.invoke :: evs ++ [Ev.rollback O.rollbackErr] }
      else
        { res := none, err := some e, wrapper := { w1 with err := some e }
          events := Ev.invoke :: evs }
    | (CbOut.ret r bizErr, w1, evs) =>
      -- `if bizErr != nil { wrapper.err = bizErr }`
      let w2 := match bizErr with
        | some be => { w1 with err := some be }
        | none => w1
      -- post-callback check: `if ctx.Err() != nil { return nil, ctx.Err() }`
      if canceled then
        { res := none, err := some GoErr.ctxCanceled, wrapper := w2, events := Ev.invoke :: evs }
      else if txOpenByMe then
        match bizErr with
        | some be =>
          { res := r, err := some be, wrapper := Wrapper.reset
            events := Ev.invoke :: evs ++ [Ev.rollback O.rollbackErr] }
        | none =>
          match w2.err with
          | some se =>
            { res := r, err := some se, wrapper := Wrapper.reset
              events := Ev.invoke :: evs ++ [Ev.rollback O.rollbackErr] }
          | none =>
            { res := r, err := O.commitErr, wrapper := Wrapper.reset
              events := Ev.invoke :: evs ++ [Ev.commit] }
      else
        { res := r, err := bizErr, wrapper := w2, events := Ev.invoke :: evs }

/-- Result of one `Transaction` call as observed by its caller: result,
error, content of the wrapper object the caller's context references
afterwards (`none` when the caller's context carries no wrapper), events. -/
structure TxOut where
  res : Option Nat
  err : Option GoErr
  wrapper : Option Wrapper
  events : List Ev
deriving DecidableEq, Repr

/-- One `Transaction` call, parameterised by the callback runner. -/
def txStep (O : DbOracle) (canceled : Bool) (w : Option Wrapper)
    (run : Wrapper → CbOut × Wrapper × List Ev) : TxOut :=
  match entry O w with
  | .noConn => { res := none, err := some GoErr.noConnection, wrapper := w, events := [] }
  | .sticky e =>
    { res := none, err := some (GoErr.alreadyHasError e), wrapper := w, events := [] }
  | .go txOpenByMe w0 ev shared =>
    let f := finish O canceled txOpenByMe run w0
    { res := f.res, err := f.err
      wrapper := if shared then some f.wrapper else w
      events := ev ++ f.events }

/-- Execute a callback body from a wrapper state: yields the callback's
outcome, the wrapper content it leaves behind, and nested-call events. -/
def runBody (O : DbOracle) (canceled : Bool) : UoW → Wrapper → CbOut × Wrapper × List Ev
  | .done r e, w => (CbOut.ret r e, w, [])
  | .panics pv, w => (CbOut.panicked pv, w, [])
  | .seq inner swallow cont, w =>
    let t := txStep O canceled (some w) (fun wv => runBody O canceled inner wv)
    let w1 := t.wrapper.getD w
    if !swallow && t.err.isSome then (CbOut.ret t.res t.err, w1, t.events)
    else
      let r2 := runBody O canceled cont w1
      (r2.1, r2.2.1, t.events ++ r2.2.2)

/-- `tm.Transaction(ctx, doTransaction)`: the transactional entry point. -/
def runTransaction (O : DbOracle) (canceled : Bool) (w : Option Wrapper) (body : UoW) : TxOut :=
  txStep O canceled w (fun wv => runBody O canceled body wv)

/-- `tm.GetDb(ctx)`: return the context's wrapped handle when present and
non-nil, else a fresh handle from the connection source.  Output: the
handle, the wrapper content afterwards, the events issued. -/
def GetDb (O : DbOracle) (w : Option Wrapper) : Option Nat × Option Wrapper × List Ev :=
  match w with
  | some wr => if wr.db.isSome then (wr.db, some wr, []) else (O.conn, some wr, [])
  | none => (O.conn, none, [])

/-- The `transactionManager` struct (identity fields only; it holds no
per-call state). -/
structure transactionManager where
  serviceName : String
  database : String
  ctxDbWrapperKey : String
deriving DecidableEq, Repr

/-- Lookup in the `tmMap` registry, modelled as an association list. -/
def regFind (mapKey : String) : List (String × transactionManager) → Option transactionManager
  | [] => none
  | (k, tm) :: rest => if k = mapKey then some tm else regFind mapKey rest

/-- `NewTransactionManager(serviceName, database)`: look up by composite
key; on a miss, take the lock, re-check (double-checked pattern — in this
sequential model the re-check trivially repeats the lookup), construct,
store.  The registry is threaded explicitly. -/
def NewTransactionManager (tmMap : List (String × transactionManager))
    (serviceName database : String) :
    transactionManager × List (String × transactionManager) :=
  let mapKey := serviceName ++ ":" ++ database
  match regFind mapKey tmMap with
  | some tm => (tm, tmMap)
  | none =>
    match regFind mapKey tmMap with
    | some tm => (tm, tmMap)
    | none =>
      let tm : transactionManager :=
        { serviceName := serviceName, database := database
          ctxDbWrapperKey := "dbWrapper:" ++ mapKey }
      (tm, (mapKey, tm) :: tmMap)

/-- Go strings are modelled as lists of characters (the inputs of interest
are ASCII, where byte slicing and character slicing agree). -/
abbrev GoStr := List Char

/-- The sort direction type `ORDER` (`ASC = 1`, `DESC = -1`). -/
inductive ORDER where
  | ASC
  | DESC
deriving DecidableEq, Repr

/-- `strings.ToLower` (ASCII fragment). -/
def goToLower (s : GoStr) : GoStr := s.map Char.toLower

/-- `strings.HasSuffix(s, suf)`. -/
def hasSuffix (s suf : GoStr) : Bool := suf.isSuffixOf s

/-- The part of `ParseOrderOption` after lowercasing.  Go's `str[:n]`
panics when `n = len(str)-5` (resp. `len(str)-4`) is negative; the panic is
modelled as `none`. -/
def parseLowered (s : GoStr) : Option (GoStr × ORDER) :=
  if hasSuffix s ("desc".toList) then
    if s.length < 5 then none
    else some (s.take (s.length - 5), ORDER.DESC)
  else if hasSuffix s ("asc".toList) then
    if s.length < 4 then none
    else some (s.take (s.length - 4), ORDER.ASC)
  else some (s, ORDER.ASC)

/-- `ParseOrderOption(str)`: lowercase, then strip a recognized order
suffix together with the separator character before it. -/
def ParseOrderOption (str : GoStr) : Option (GoStr × ORDER) :=
  parseLowered (goToLower str)

/-! ### Helper lemmas -/

/-- Characterisation of the `go` outcome of the entry phase: the wrapper the
callback starts from always has an open transaction and a handle; an owning
call starts with a clean sticky-error slot and has issued exactly one begin;
a non-owning call shares the caller's wrapper object unchanged and has
issued nothing. -/
theorem entry_go_cases {O : DbOracle} {w : Option Wrapper} {b : Bool} {w0 : Wrapper}
    {ev : List Ev} {sh : Bool} (h : entry O w = .go b w0 ev sh) :
    w0.inTransaction = true ∧ w0.db.isSome = true ∧
    (b = true → (w0.err = none ∧ ev = [Ev.txBegin])) ∧
    (b = false → (sh = true ∧ ev = [] ∧ w = some w0)) := by
  cases w with
  | none =>
    simp only [entry, entryOpen] at h
    cases hc : O.conn with
    | none => rw [hc] at h; simp at h
    | some hh =>
      rw [hc] at h
      simp only [Entry.go.injEq] at h
      obtain ⟨rfl, rfl, rfl, rfl⟩ := h
      simp
  | some wr =>
    simp only [entry, entryOpen] at h
    cases hdb : wr.db with
    | none =>
      rw [hdb] at h
      cases hc : O.conn with
      | none => rw [hc] at h; simp at h
      | some hh =>
        rw [hc] at h
        simp only [Entry.go.injEq] at h
        obtain ⟨rfl, rfl, rfl, rfl⟩ := h
        simp
    | some d =>
      rw [hdb] at h
      cases herr : wr.err with
      | some e => rw [herr] at h; simp at h
      | none =>
        rw [herr] at h
        cases htx : wr.inTransaction with
        | true =>
          rw [htx] at h
          simp only [if_true, Entry.go.injEq] at h
          obtain ⟨rfl, rfl, rfl, rfl⟩ := h
          simp [htx, hdb, herr]
        | false =>
          rw [htx] at h
          simp only [if_false, Entry.go.injEq] at h
          obtain ⟨rfl, rfl, rfl, rfl⟩ := h
          simp

/-- A nested (non-owning) `Transaction` call on a live in-transaction
wrapper with a clean sticky-error slot reduces to the non-owning `finish`. -/
theorem txStep_nested (O : DbOracle) (c : Bool) (w : Wrapper)
    (run : Wrapper → CbOut × Wrapper × List Ev)
    (htx : w.inTransaction = true) (hdb : w.db.isSome = true) (herr : w.err = none) :
    txStep O c (some w) run =
      { res := (finish O c false run w).res, err := (finish O c false run w).err
        wrapper := some (finish O c false run w).wrapper
        events := (finish O c false run w).events } := by
  obtain ⟨d, hd⟩ := Option.isSome_iff_exists.mp hdb
  simp [txStep, entry, hd, herr, htx]

/-! ### Claim theorems -/

/-- C4: a `Transaction` call entered on a context whose wrapper (with a live
handle) already carries a sticky error fails immediately with an error
wrapping the sticky error; the callback is never invoked and no begin,
commit or rollback is issued; the wrapper is untouched.  This holds
regardless of cancellation. -/
theorem transaction_sticky_fail_fast (O : DbOracle) (canceled : Bool) (wr : Wrapper)
    (e : GoErr) (body : UoW) (hdb : wr.db.isSome = true) (herr : wr.err = some e) :
    runTransaction O canceled (some wr) body =
      { res := none, err := some (GoErr.alreadyHasError e), wrapper := some wr, events := [] } := by
  obtain ⟨d, hd⟩ := Option.isSome_iff_exists.mp hdb
  simp [runTransaction, txStep, entry, hd, herr]

/-- Witness for C4. -/
theorem transaction_sticky_fail_fast_witness :
    runTransaction { conn := some 0, beginTx := Nat.succ, commitErr := none, rollbackErr := none }
        false (some { db := some 1, inTransaction := true, err := some (GoErr.named "boom") })
        (UoW.done (some 7) none) =
      { res := none, err := some (GoErr.alreadyHasError (GoErr.named "boom"))
        wrapper := some { db := some 1, inTransaction := true, err := some (GoErr.named "boom") }
        events := [] } :=
  transaction_sticky_fail_fast _ false _ _ _ (by decide) (by decide)

/-- C8: entering `Transaction` with no wrapper (or a wrapper without a
handle) when no raw connection is available fails immediately with the
"no connection" error; the callback is never invoked, nothing is begun,
committed or rolled back, and the caller's context keeps whatever wrapper
view it had. -/
theorem transaction_no_connection (O : DbOracle) (canceled : Bool) (w : Option Wrapper)
    (body : UoW) (hc : O.conn = none)
    (hw : w = none ∨ ∃ wr, w = some wr ∧ wr.db = none) :
    runTransaction O canceled w body =
      { res := none, err := some GoErr.noConnection, wrapper := w, events := [] } := by
  rcases hw with rfl | ⟨wr, rfl, hdb⟩
  · simp [runTransaction, txStep, entry, entryOpen, hc]
  · simp [runTransaction, txStep, entry, entryOpen, hc, hdb]

/-- Witness for C8. -/
theorem transaction_no_connection_witness :
    runTransaction { conn := none, beginTx := Nat.succ, commitErr := none, rollbackErr := none }
        false none (UoW.done (some 7) none) =
      { res := none, err := some GoErr.noConnection, wrapper := none, events := [] } :=
  transaction_no_connection _ false none _ (by decide) (Or.inl rfl)

/-- C7: `GetDb` returns the context's wrapped handle exactly when the
wrapper is present with a non-nil handle, and otherwise a fresh handle from
the connection source; it never issues a begin/commit/rollback and never
mutates the wrapper. -/
theorem getdb_ambient_or_fresh (O : DbOracle) (w : Option Wrapper) :
    ((GetDb O w).2.1 = w ∧ (GetDb O w).2.2 = []) ∧
    (∀ wr d, w = some wr → wr.db = some d → (GetDb O w).1 = some d) ∧
    ((w = none ∨ ∃ wr, w = some wr ∧ wr.db = none) → (GetDb O w).1 = O.conn) := by
  cases w with
  | none => simp [GetDb]
  | some wr =>
    cases hdb : wr.db with
    | none =>
      refine ⟨by simp [GetDb, hdb], ?_, by simp [GetDb, hdb]⟩
      rintro wr1 d1 h1 hd1
      obtain rfl : wr = wr1 := Option.some_inj.mp h1
      rw [hdb] at hd1
      cases hd1
    | some d =>
      refine ⟨by simp [GetDb, hdb], ?_, ?_⟩
      · rintro wr1 d1 h1 hd1
        obtain rfl : wr = wr1 := Option.some_inj.mp h1
        rw [hdb] at hd1
        obtain rfl : d = d1 := Option.some_inj.mp hd1
        simp [GetDb, hdb]
      · rintro (h | ⟨wr1, h1, hd1⟩)
        · cases h
        · obtain rfl : wr = wr1 := Option.some_inj.mp h1
          rw [hdb] at hd1
          cases hd1

/-- Witness for C7. -/
theorem getdb_ambient_or_fresh_witness :
    (GetDb { conn := some 9, beginTx := Nat.succ, commitErr := none, rollbackErr := none }
        (some { db := some 3, inTransaction := true, err := none })).1 = some 3 :=
  (getdb_ambient_or_fresh _ _).2.1 _ 3 rfl (by decide)

/-- C9: two `NewTransactionManager` calls with the same identity pair
return the same manager object: the second call finds the stored entry and
leaves the registry unchanged.  On a miss the manager is constructed (with
exactly the identity fields and derived context key) and stored; any
strings — including empty ones — are valid identities. -/
theorem newTransactionManager_shared_instance (tmMap : List (String × transactionManager))
    (s d : String) :
    ((NewTransactionManager (NewTransactionManager tmMap s d).2 s d).1
        = (NewTransactionManager tmMap s d).1 ∧
     (NewTransactionManager (NewTransactionManager tmMap s d).2 s d).2
        = (NewTransactionManager tmMap s d).2) ∧
    (regFind (s ++ ":" ++ d) tmMap = none →
      (NewTransactionManager tmMap s d).1 =
        { serviceName := s, database := d
          ctxDbWrapperKey := "dbWrapper:" ++ (s ++ ":" ++ d) } ∧
      (NewTransactionManager tmMap s d).2 =
        (s ++ ":" ++ d, (NewTransactionManager tmMap s d).1) :: tmMap) := by
  constructor
  · cases hf : regFind (s ++ ":" ++ d) tmMap with
    | some tm => simp [NewTransactionManager, hf]
    | none => simp [NewTransactionManager, hf, regFind]
  · intro hf
    simp [NewTransactionManager, hf]

/-- Witness for C9: empty identity strings on an empty registry. -/
theorem newTransactionManager_shared_instance_witness :
    (NewTransactionManager [] "" "").1 =
      { serviceName := "", database := "", ctxDbWrapperKey := "dbWrapper:" ++ ("" ++ ":" ++ "") } ∧
    (NewTransactionManager [] "" "").2 =
      ("" ++ ":" ++ "", (NewTransactionManager [] "" "").1) :: [] :=
  (newTransactionManager_shared_instance [] "" "").2 (by decide)

/-- The post-lowercasing parser fails (models the slice-bounds panic)
exactly on the two bare order-suffix strings. -/
theorem parseLowered_none_iff (u : GoStr) :
    parseLowered u = none ↔ (u = "asc".toList ∨ u = "desc".toList) := by
  constructor
  · intro h
    simp only [parseLowered] at h
    cases hd : hasSuffix u ("desc".toList) with
    | true =>
      rw [hd] at h
      simp only [if_true] at h
      by_cases hl : u.length < 5
      · right
        have hsuf : ("desc".toList) <:+ u :=
          List.isSuffixOf_iff_suffix.mp (by exact hd)
        obtain ⟨t, rfl⟩ := hsuf
        have h4 : ("desc".toList).length = 4 := by decide
        rw [List.length_append, h4] at hl
        have ht : t.length = 0 := by omega
        obtain rfl := List.length_eq_zero.mp ht
        simp
      · rw [if_neg hl] at h
        simp at h
    | false =>
      rw [hd] at h
      simp only [Bool.false_eq_true, if_false] at h
      cases ha : hasSuffix u ("asc".toList) with
      | true =>
        rw [ha] at h
        simp only [if_true] at h
        by_cases hl : u.length < 4
        · left
          have hsuf : ("asc".toList) <:+ u :=
            List.isSuffixOf_iff_suffix.mp (by exact ha)
          obtain ⟨t, rfl⟩ := hsuf
          have h3 : ("asc".toList).length = 3 := by decide
          rw [List.length_append, h3] at hl
          have ht : t.length = 0 := by omega
          obtain rfl := List.length_eq_zero.mp ht
          simp
        · rw [if_neg hl] at h
          simp at h
      | false =>
        rw [ha] at h
        simp at h
  · rintro (rfl | rfl) <;> decide

/-- C10: `ParseOrderOption` hits the slice-bounds panic on exactly the
inputs whose lowercase form is a bare recognized order suffix — in
particular on "asc" and "desc" in any letter case — and returns an order
option on every other input. -/
theorem parseOrderOption_panics_iff :
    (ParseOrderOption ("asc".toList) = none ∧ ParseOrderOption ("desc".toList) = none ∧
     ParseOrderOption ("ASC".toList) = none ∧ ParseOrderOption ("Desc".toList) = none) ∧
    (∀ s : GoStr, ParseOrderOption s = none ↔
      (goToLower s = "asc".toList ∨ goToLower s = "desc".toList)) := by
  refine ⟨by decide, fun s => ?_⟩
  simpa only [ParseOrderOption] using parseLowered_none_iff (goToLower s)

/-- Witness for C10: a documented input parses fine. -/
theorem parseOrderOption_panics_iff_witness :
    ParseOrderOption ("CREATE_TIME_DESC".toList) =
      some ("create_time".toList, ORDER.DESC) ∧
    ParseOrderOption ("aSc".toList) = none := by
  constructor
  · decide
  · exact (parseOrderOption_panics_iff.2 ("aSc".toList)).mpr (Or.inl (by decide))

/-! ### Trace invariants of nested calls -/

/-- Unfolding equation for the nested-call case of `runBody`. -/
theorem runBody_seq (O : DbOracle) (c : Bool) (inner : UoW) (sw : Bool) (cont : UoW)
    (w : Wrapper) :
    runBody O c (.seq inner sw cont) w =
      (let t := txStep O c (some w) (fun wv => runBody O c inner wv)
       let w1 := t.wrapper.getD w
       if !sw && t.err.isSome then (CbOut.ret t.res t.err, w1, t.events)
       else
         let r2 := runBody O c cont w1
         (r2.1, r2.2.1, t.events ++ r2.2.2)) := rfl

/-- Any callback body run inside an open transaction (live handle, flag up)
leaves the handle and the transaction flag unchanged and emits only
callback invocations: every begin, commit and rollback in the whole tree is
issued by the owning call, never by nested levels. -/
theorem runBody_nested_inv (O : DbOracle) (t : UoW) :
    ∀ (w : Wrapper) (c1 : CbOut) (w1 : Wrapper) (evs : List Ev),
      w.inTransaction = true → w.db.isSome = true →
      runBody O false t w = (c1, w1, evs) →
      (w1.inTransaction = true ∧ w1.db = w.db ∧ ∀ e ∈ evs, e = Ev.invoke) := by
  induction t with
  | done r e =>
    intro w c1 w1 evs h1 h2 hrun
    simp only [runBody, Prod.mk.injEq] at hrun
    obtain ⟨-, rfl, rfl⟩ := hrun
    simp [h1]
  | panics pv =>
    intro w c1 w1 evs h1 h2 hrun
    simp only [runBody, Prod.mk.injEq] at hrun
    obtain ⟨-, rfl, rfl⟩ := hrun
    simp [h1]
  | seq inner sw cont ih1 ih2 =>
    intro w c1 w1 evs h1 h2 hrun
    obtain ⟨d, hd⟩ := Option.isSome_iff_exists.mp h2
    cases herr : w.err with
    | some e0 =>
      have ht : txStep O false (some w) (fun wv => runBody O false inner wv) =
          { res := none, err := some (GoErr.alreadyHasError e0)
            wrapper := some w, events := [] } := by
        simp [txStep, entry, hd, herr]
      rw [runBody_seq] at hrun
      simp only [ht] at hrun
      cases sw with
      | false =>
        simp only [Bool.not_false, Option.isSome_some, Bool.and_self, if_true,
          Option.getD_some, Prod.mk.injEq] at hrun
        obtain ⟨-, rfl, rfl⟩ := hrun
        simp [h1]
      | true =>
        simp only [Bool.not_true, Bool.false_and, Bool.false_eq_true, if_false,
          Option.getD_some] at hrun
        rcases hrc : runBody O false cont w with ⟨c2, w2, evs2⟩
        rw [hrc] at hrun
        simp only [Prod.mk.injEq] at hrun
        obtain ⟨-, rfl, rfl⟩ := hrun
        have := ih2 w c2 w2 evs2 h1 h2 hrc
        simpa using this
    | none =>
      rcases hrb : runBody O false inner w with ⟨ci, wi, evsi⟩
      obtain ⟨hwitx, hwidb, hevi⟩ := ih1 w ci wi evsi h1 h2 hrb
      have hwidbS : wi.db.isSome = true := by rw [hwidb]; exact h2
      rw [runBody_seq] at hrun
      rw [txStep_nested O false w _ h1 h2 herr] at hrun
      cases ci with
      | panicked pv =>
        have hfin : finish O false false (fun wv => runBody O false inner wv) w =
            { res := none, err := some (panicToErr pv)
              wrapper := { wi with err := some (panicToErr pv) }
              events := Ev.invoke :: evsi } := by
          simp [finish, hrb]
        rw [hfin] at hrun
        cases sw with
        | false =>
          simp only [Bool.not_false, Option.isSome_some, Bool.and_self, if_true,
            Option.getD_some, Prod.mk.injEq] at hrun
          obtain ⟨-, rfl, rfl⟩ := hrun
          refine ⟨hwitx, hwidb, ?_⟩
          intro e he
          rcases List.mem_cons.mp he with rfl | he'
          · rfl
          · exact hevi e he'
        | true =>
          simp only [Bool.not_true, Bool.false_and, Bool.false_eq_true, if_false,
            Option.getD_some] at hrun
          rcases hrc : runBody O false cont { wi with err := some (panicToErr pv) }
            with ⟨c2, w2, evs2⟩
          rw [hrc] at hrun
          simp only [Prod.mk.injEq] at hrun
          obtain ⟨-, rfl, rfl⟩ := hrun
          obtain ⟨hw2tx, hw2db, hev2⟩ :=
            ih2 { wi with err := some (panicToErr pv) } c2 w2 evs2 hwitx hwidbS hrc
          refine ⟨hw2tx, by rw [hw2db]; exact hwidb, ?_⟩
          intro e he
          rcases List.mem_append.mp he with he' | he'
          · rcases List.mem_cons.mp he' with rfl | he''
            · rfl
            · exact hevi e he''
          · exact hev2 e he'
      | ret r e =>
        cases e with
        | none =>
          have hfin : finish O false false (fun wv => runBody O false inner wv) w =
              { res := r, err := none, wrapper := wi, events := Ev.invoke :: evsi } := by
            simp [finish, hrb]
          rw [hfin] at hrun
          simp only [Bool.and_false, Option.isSome_none, Bool.false_eq_true, if_false,
            Option.getD_some, Bool.and_eq_true] at hrun
          rcases hrc : runBody O false cont wi with ⟨c2, w2, evs2⟩
          rw [hrc] at hrun
          simp only [Prod.mk.injEq] at hrun
          obtain ⟨-, rfl, rfl⟩ := hrun
          obtain ⟨hw2tx, hw2db, hev2⟩ := ih2 wi c2 w2 evs2 hwitx hwidbS hrc
          refine ⟨hw2tx, by rw [hw2db]; exact hwidb, ?_⟩
          intro e he
          rcases List.mem_append.mp he with he' | he'
          · rcases List.mem_cons.mp he' with rfl | he''
            · rfl
            · exact hevi e he''
          · exact hev2 e he'
        | some be =>
          have hfin : finish O false false (fun wv => runBody O false inner wv) w =
              { res := r, err := some be, wrapper := { wi with err := some be }
                events := Ev.invoke :: evsi } := by
            simp [finish, hrb]
          rw [hfin] at hrun
          cases sw with
          | false =>
            simp only [Bool.not_false, Option.isSome_some, Bool.and_self, if_true,
              Option.getD_some, Prod.mk.injEq] at hrun
            obtain ⟨-, rfl, rfl⟩ := hrun
            refine ⟨hwitx, hwidb, ?_⟩
            intro e he
            rcases List.mem_cons.mp he with rfl | he'
            · rfl
            · exact hevi e he'
          | true =>
            simp only [Bool.not_true, Bool.false_and, Bool.false_eq_true, if_false,
              Option.getD_some] at hrun
            rcases hrc : runBody O false cont { wi with err := some be }
              with ⟨c2, w2, evs2⟩
            rw [hrc] at hrun
            simp only [Prod.mk.injEq] at hrun
            obtain ⟨-, rfl, rfl⟩ := hrun
            obtain ⟨hw2tx, hw2db, hev2⟩ :=
              ih2 { wi with err := some be } c2 w2 evs2 hwitx hwidbS hrc
            refine ⟨hw2tx, by rw [hw2db]; exact hwidb, ?_⟩
            intro e he
            rcases List.mem_append.mp he with he' | he'
            · rcases List.mem_cons.mp he' with rfl | he''
              · rfl
              · exact hevi e he''
            · exact hev2 e he'

/-- A fully successful callback body run inside an open transaction returns
without error, leaves the wrapper exactly as it found it, and emits only
callback invocations. -/
theorem runBody_allOk (O : DbOracle) (t : UoW) (hok : allOk t = true) :
    ∀ w : Wrapper, w.inTransaction = true → w.db.isSome = true → w.err = none →
      ∃ r evs, runBody O false t w = (CbOut.ret r none, w, evs) ∧
        ∀ e ∈ evs, e = Ev.invoke := by
  induction t with
  | done r e =>
    intro w h1 h2 h3
    simp only [allOk, Option.isNone_iff_eq_none] at hok
    subst hok
    exact ⟨r, [], rfl, by simp⟩
  | panics pv => simp [allOk] at hok
  | seq inner sw cont ih1 ih2 =>
    intro w h1 h2 h3
    simp only [allOk, Bool.and_eq_true] at hok
    obtain ⟨r1, evs1, hrb1, hev1⟩ := ih1 hok.1 w h1 h2 h3
    obtain ⟨r2, evs2, hrb2, hev2⟩ := ih2 hok.2 w h1 h2 h3
    have hfin : finish O false false (fun wv => runBody O false inner wv) w =
        { res := r1, err := none, wrapper := w, events := Ev.invoke :: evs1 } := by
      simp [finish, hrb1]
    have ht : txStep O false (some w) (fun wv => runBody O false inner wv) =
        { res := r1, err := none, wrapper := some w, events := Ev.invoke :: evs1 } := by
      rw [txStep_nested O false w _ h1 h2 h3, hfin]
    refine ⟨r2, Ev.invoke :: evs1 ++ evs2, ?_, ?_⟩
    · rw [runBody_seq]
      simp only [ht, Option.isSome_none, Bool.and_false, Bool.false_eq_true, if_false,
        Option.getD_some, hrb2]
    · intro e he
      rcases List.mem_cons.mp he with rfl | he'
      · rfl
      · rcases List.mem_append.mp he' with he'' | he''
        · exact hev1 e he''
        · exact hev2 e he''

/-- C1 (counterexample): a call on a context that is already cancelled at
the pre-callback check, with no pre-existing transaction, does fail with
the cancellation error and never invokes the callback — but a begin IS
issued, because the source calls `BeginTx` before its pre-callback
`ctx.Err()` check.  This refutes the claimed "no begin". -/
theorem transaction_precancel_begin_cex :
    (runTransaction
        { conn := some 0, beginTx := Nat.succ, commitErr := none, rollbackErr := none }
        true none (UoW.done (some 7) none)).events = [Ev.txBegin] ∧
    (runTransaction
        { conn := some 0, beginTx := Nat.succ, commitErr := none, rollbackErr := none }
        true none (UoW.done (some 7) none)).err = some GoErr.ctxCanceled ∧
    Ev.invoke ∉ (runTransaction
        { conn := some 0, beginTx := Nat.succ, commitErr := none, rollbackErr := none }
        true none (UoW.done (some 7) none)).events := by
  decide

/-- C1 (amended): if the context is already cancelled at the pre-callback
check (and the call did not fail earlier for lack of a connection or for a
sticky error), the call fails with the cancellation error, the callback is
never invoked, and no commit or rollback is issued; however a begin may
already have been issued by the entry phase (the transaction-opening paths
call `BeginTx` before the cancellation check), and the wrapper is left
exactly as the entry phase produced it — in particular it is not reset and
the begun transaction is not resolved. -/
theorem transaction_precancel_no_resolution (O : DbOracle) (w : Option Wrapper) (t : UoW)
    (b : Bool) (w0 : Wrapper) (ev : List Ev) (sh : Bool)
    (hE : entry O w = .go b w0 ev sh) :
    runTransaction O true w t =
      { res := none, err := some GoErr.ctxCanceled
        wrapper := if sh then some w0 else w, events := ev } ∧
    (ev = [] ∨ ev = [Ev.txBegin]) := by
  have hc := entry_go_cases hE
  refine ⟨?_, ?_⟩
  · simp [runTransaction, txStep, hE, finish]
  · cases b with
    | true => exact Or.inr (hc.2.2.1 rfl).2
    | false => exact Or.inl (hc.2.2.2 rfl).2.1

/-- Witness for the amended C1. -/
theorem transaction_precancel_no_resolution_witness :
    runTransaction
        { conn := some 0, beginTx := Nat.succ, commitErr := none, rollbackErr := none }
        true none (UoW.done none none) =
      { res := none, err := some GoErr.ctxCanceled, wrapper := none
        events := [Ev.txBegin] } ∧
    ([Ev.txBegin] = ([] : List Ev) ∨ [Ev.txBegin] = [Ev.txBegin]) :=
  transaction_precancel_no_resolution
    { conn := some 0, beginTx := Nat.succ, commitErr := none, rollbackErr := none }
    none (UoW.done none none) true
    { db := some 1, inTransaction := true, err := none } [Ev.txBegin] false (by decide)

/-- C2: an owning call whose own callback returns no error but whose
wrapper carries a sticky error (recorded by a nested non-owning call that
did not propagate it through its own return value) rolls the transaction
back and returns the sticky error together with the callback's result, and
resets the wrapper it owns. -/
theorem transaction_sticky_owner_rollback (O : DbOracle) (w : Option Wrapper) (t : UoW)
    (w0 : Wrapper) (ev : List Ev) (sh : Bool) (r : Option Nat) (w1 : Wrapper)
    (evs : List Ev) (se : GoErr)
    (hE : entry O w = .go true w0 ev sh)
    (hB : runBody O false t w0 = (CbOut.ret r none, w1, evs))
    (hS : w1.err = some se) :
    runTransaction O false w t =
      { res := r, err := some se, wrapper := if sh then some Wrapper.reset else w
        events := Ev.txBegin :: Ev.invoke :: evs ++ [Ev.rollback O.rollbackErr] } := by
  have hc := entry_go_cases hE
  obtain ⟨-, hev⟩ := hc.2.2.1 rfl
  subst hev
  simp [runTransaction, txStep, hE, finish, hB, hS]

/-- Witness for C2: the spec's "insufficient stock" scenario — the nested
call records the error, the intermediate level swallows it and returns
success, the owner still rolls back and surfaces "insufficient stock". -/
theorem transaction_sticky_owner_rollback_witness :
    runTransaction
        { conn := some 0, beginTx := Nat.succ, commitErr := none, rollbackErr := none }
        false none
        (UoW.seq (UoW.done none (some (GoErr.named "insufficient stock"))) true
          (UoW.done (some 7) none)) =
      { res := some 7, err := some (GoErr.named "insufficient stock"), wrapper := none
        events := [Ev.txBegin, Ev.invoke, Ev.invoke, Ev.rollback none] } := by
  have h := transaction_sticky_owner_rollback
      { conn := some 0, beginTx := Nat.succ, commitErr := none, rollbackErr := none }
      none
      (UoW.seq (UoW.done none (some (GoErr.named "insufficient stock"))) true
        (UoW.done (some 7) none))
      { db := some 1, inTransaction := true, err := none } [Ev.txBegin] false
      (some 7)
      { db := some 1, inTransaction := true, err := some (GoErr.named "insufficient stock") }
      [Ev.invoke] (GoErr.named "insufficient stock")
      (by decide) (by decide) (by decide)
  simpa using h

/-- C3: a panic in the callback never escapes `Transaction`: it is
converted to an ordinary error value and returned; for an owning call a
rollback is issued and the wrapper is reset; for a non-owning call neither
happens — the sticky error is merely recorded on the shared wrapper. -/
theorem transaction_panic_converted (O : DbOracle) (w : Option Wrapper) (t : UoW)
    (b : Bool) (w0 : Wrapper) (ev : List Ev) (sh : Bool) (pv : PanicVal)
    (w1 : Wrapper) (evs : List Ev)
    (hE : entry O w = .go b w0 ev sh)
    (hB : runBody O false t w0 = (CbOut.panicked pv, w1, evs)) :
    runTransaction O false w t =
      if b then
        { res := none, err := some (panicToErr pv)
          wrapper := if sh then some Wrapper.reset else w
          events := Ev.txBegin :: Ev.invoke :: evs ++ [Ev.rollback O.rollbackErr] }
      else
        { res := none, err := some (panicToErr pv)
          wrapper := some { w1 with err := some (panicToErr pv) }
          events := Ev.invoke :: evs } := by
  have hc := entry_go_cases hE
  cases b with
  | true =>
    obtain ⟨-, hev⟩ := hc.2.2.1 rfl
    subst hev
    simp [runTransaction, txStep, hE, finish, hB]
  | false =>
    obtain ⟨hsh, hev, -⟩ := hc.2.2.2 rfl
    subst hsh
    subst hev
    simp [runTransaction, txStep, hE, finish, hB]

/-- Witness for C3: a nested, non-owning call whose callback panics —
the panic is converted to an error, the sticky error is set, and no
rollback and no reset happen at this level. -/
theorem transaction_panic_converted_witness :
    runTransaction
        { conn := some 0, beginTx := Nat.succ, commitErr := none, rollbackErr := none }
        false (some { db := some 5, inTransaction := true, err := none })
        (UoW.panics (PanicVal.other "boom")) =
      { res := none, err := some (GoErr.recovered "boom")
        wrapper := some { db := some 5, inTransaction := true
                          err := some (GoErr.recovered "boom") }
        events := [Ev.invoke] } := by
  have h := transaction_panic_converted
      { conn := some 0, beginTx := Nat.succ, commitErr := none, rollbackErr := none }
      (some { db := some 5, inTransaction := true, err := none })
      (UoW.panics (PanicVal.other "boom")) false
      { db := some 5, inTransaction := true, err := none } [] true
      (PanicVal.other "boom")
      { db := some 5, inTransaction := true, err := none } []
      (by decide) (by decide)
  simpa using h

/-- C5: in a fully successful call tree (every level returns no error, no
cancellation), the owning call issues exactly one begin and exactly one
commit, as the final event, and no rollback: all other events are callback
invocations.  A non-owning call in such a tree issues no begin, commit or
rollback at all, leaves the wrapper untouched, and returns its callback's
result and (nil) error unchanged. -/
theorem transaction_success_single_commit (O : DbOracle) (w : Option Wrapper) (t : UoW)
    (w0 : Wrapper) (ev : List Ev) (sh : Bool)
    (hE : entry O w = .go true w0 ev sh) (hok : allOk t = true) :
    (∃ r evs, runTransaction O false w t =
        { res := r, err := O.commitErr
          wrapper := if sh then some Wrapper.reset else w
          events := Ev.txBegin :: Ev.invoke :: evs ++ [Ev.commit] } ∧
      ∀ e ∈ evs, e = Ev.invoke) ∧
    (∀ (t' : UoW) (wn : Wrapper), wn.inTransaction = true → wn.db.isSome = true →
      wn.err = none → allOk t' = true →
      ∃ r evs, runBody O false t' wn = (CbOut.ret r none, wn, evs) ∧
        runTransaction O false (some wn) t' =
          { res := r, err := none, wrapper := some wn, events := Ev.invoke :: evs } ∧
        ∀ e ∈ evs, e = Ev.invoke) := by
  have hc := entry_go_cases hE
  obtain ⟨herr0, hev⟩ := hc.2.2.1 rfl
  subst hev
  constructor
  · obtain ⟨r, evs, hrb, hev1⟩ := runBody_allOk O t hok w0 hc.1 hc.2.1 herr0
    refine ⟨r, evs, ?_, hev1⟩
    simp [runTransaction, txStep, hE, finish, hrb, herr0]
  · intro t' wn h1 h2 h3 hok'
    obtain ⟨r, evs, hrb, hev1⟩ := runBody_allOk O t' hok' wn h1 h2 h3
    refine ⟨r, evs, hrb, ?_, hev1⟩
    have hfin : finish O false false (fun wv => runBody O false t' wv) wn =
        { res := r, err := none, wrapper := wn, events := Ev.invoke :: evs } := by
      simp [finish, hrb]
    rw [runTransaction, txStep_nested O false wn _ h1 h2 h3, hfin]

/-- Witness for C5. -/
theorem transaction_success_single_commit_witness :
    ∃ r evs, runTransaction
        { conn := some 0, beginTx := Nat.succ, commitErr := none, rollbackErr := none }
        false none
        (UoW.seq (UoW.done (some 1) none) true (UoW.done (some 2) none)) =
      { res := r, err := none, wrapper := none
        events := Ev.txBegin :: Ev.invoke :: evs ++ [Ev.commit] } ∧
      ∀ e ∈ evs, e = Ev.invoke :=
  (transaction_success_single_commit
    { conn := some 0, beginTx := Nat.succ, commitErr := none, rollbackErr := none }
    none (UoW.seq (UoW.done (some 1) none) true (UoW.done (some 2) none))
    { db := some 1, inTransaction := true, err := none } [Ev.txBegin] false
    (by decide) (by decide)).1

/-- C6: an owning call whose callback returns a business error issues
exactly one rollback and no commit, and returns the business error as the
dominant error — whatever the rollback's own outcome (the rollback's error
only appears in the trace, standing for the source's logging). -/
theorem transaction_bizerr_rollback_dominant (O : DbOracle) (w : Option Wrapper) (t : UoW)
    (w0 : Wrapper) (ev : List Ev) (sh : Bool) (r : Option Nat) (be : GoErr)
    (w1 : Wrapper) (evs : List Ev)
    (hE : entry O w = .go true w0 ev sh)
    (hB : runBody O false t w0 = (CbOut.ret r (some be), w1, evs)) :
    runTransaction O false w t =
      { res := r, err := some be, wrapper := if sh then some Wrapper.reset else w
        events := Ev.txBegin :: Ev.invoke :: evs ++ [Ev.rollback O.rollbackErr] } ∧
    (Ev.txBegin :: Ev.invoke :: evs ++ [Ev.rollback O.rollbackErr]).countP
      (fun e => e.isRollback) = 1 ∧
    (Ev.txBegin :: Ev.invoke :: evs ++ [Ev.rollback O.rollbackErr]).count Ev.commit = 0 := by
  have hc := entry_go_cases hE
  obtain ⟨-, hev⟩ := hc.2.2.1 rfl
  subst hev
  obtain ⟨-, -, hinv⟩ :=
    runBody_nested_inv O t w0 (CbOut.ret r (some be)) w1 evs hc.1 hc.2.1 hB
  refine ⟨?_, ?_, ?_⟩
  · simp [runTransaction, txStep, hE, finish, hB]
  · have hz : evs.countP (fun e => e.isRollback) = 0 :=
      List.countP_eq_zero.mpr (fun a ha => by rw [hinv a ha]; decide)
    simp [List.countP_cons, List.countP_append, hz, Ev.isRollback]
    intro a ha
    rw [hinv a ha]
  · have hnc : Ev.commit ∉ evs := fun hmem => absurd (hinv _ hmem) (by decide)
    have hz : evs.count Ev.commit = 0 := List.count_eq_zero.mpr hnc
    simp [List.count_cons, List.count_append, hz]

/-- Witness for C6: the rollback itself fails, and the business error is
still the returned error. -/
theorem transaction_bizerr_rollback_dominant_witness :
    runTransaction
        { conn := some 0, beginTx := Nat.succ, commitErr := none
          rollbackErr := some (GoErr.named "rollback failed") }
        false none (UoW.done (some 3) (some (GoErr.named "bizfail"))) =
      { res := some 3, err := some (GoErr.named "bizfail"), wrapper := none
        events := [Ev.txBegin, Ev.invoke,
          Ev.rollback (some (GoErr.named "rollback failed"))] } := by
  have h := transaction_bizerr_rollback_dominant
      { conn := some 0, beginTx := Nat.succ, commitErr := none
        rollbackErr := some (GoErr.named "rollback failed") }
      none (UoW.done (some 3) (some (GoErr.named "bizfail")))
      { db := some 1, inTransaction := true, err := none } [Ev.txBegin] false
      (some 3) (GoErr.named "bizfail")
      { db := some 1, inTransaction := true, err := none } []
      (by decide) (by decide)
  simpa using h.1

end RepoVerify
